import Mathlib

/-!
Verification of the online Bayesian change-point core of pysatl-cpd.

The development shallowly embeds the Python sources:
  pysatl_cpd/core/algorithms/bayesian_online_algorithm.py   (BayesianOnlineCpd)
  pysatl_cpd/core/algorithms/bayesian_linear_heuristic.py   (BayesianLinearHeuristic)
  pysatl_cpd/core/algorithms/bayesian/likelihoods/exponential_conjugate.py
  pysatl_cpd/core/algorithms/bayesian/likelihoods/gaussian_conjugate.py
  pysatl_cpd/core/algorithms/bayesian/likelihoods/heuristic_gaussian_vs_exponential.py
  pysatl_cpd/core/algorithms/bayesian/localizers/argmax.py
  pysatl_cpd/core/algorithms/bayesian/detectors/threshold.py

Numbers are modelled exactly: a float64 value that carries a numeric result is a
rational number, and the IEEE NaN produced by numpy/scipy degeneracies is
modelled explicitly as the `none` case of `Option ℚ` (abbreviated `OQ`), with
arithmetic that propagates `none` the way IEEE arithmetic propagates NaN and
comparisons that are `false` on `none` the way every IEEE comparison with NaN
is false.  Division by zero of the kind the program can actually reach is
0/0 = NaN; `oDiv` therefore sends every division by zero to `none`.
-/

/-- A float64 value: `some q` is the real value `q`, `none` is IEEE NaN. -/
abbrev OQ := Option ℚ

/-- Addition with NaN propagation (IEEE: NaN + x = NaN). -/
def oAdd : OQ → OQ → OQ
  | some a, some b => some (a + b)
  | _, _ => none

/-- Subtraction with NaN propagation. -/
def oSub : OQ → OQ → OQ
  | some a, some b => some (a - b)
  | _, _ => none

/-- Multiplication with NaN propagation (IEEE: 0 * NaN = NaN). -/
def oMul : OQ → OQ → OQ
  | some a, some b => some (a * b)
  | _, _ => none

/-- Division with NaN propagation.  Division by zero yields `none`: the only
division by zero the embedded program can reach is 0/0, which is IEEE NaN
(a positive numerator over zero would be +inf, but every numerator the program
divides is a summand of the zero total, hence itself zero). -/
def oDiv : OQ → OQ → OQ
  | some a, some b => if b = 0 then none else some (a / b)
  | _, _ => none

/-- Sum of a list of float values, `np.sum`: 0 on the empty list, NaN as soon
as one summand is NaN. -/
def oSum (l : List OQ) : OQ := l.foldr oAdd (some 0)

/-- Strict `<` on floats: every comparison involving NaN is false. -/
def oLt : OQ → OQ → Bool
  | some a, some b => a < b
  | _, _ => false

/-- Comparison `>=` on floats: false when either side is NaN. -/
def oGe : OQ → OQ → Bool
  | some a, some b => b ≤ a
  | _, _ => false

/-- A float value that is an actual number and non-negative (so not NaN). -/
def oIsNonnegSome : OQ → Bool
  | some q => 0 ≤ q
  | none => false

/-- Pointwise combination of three lists, truncating at the shortest
(the numpy expressions it models only ever combine arrays of equal length). -/
def zip3With (f : α → β → γ → δ) : List α → List β → List γ → List δ
  | a :: as, b :: bs, c :: cs => f a b c :: zip3With f as bs cs
  | _, _, _ => []

/-- Scan of `np.argmax` over a float array: numpy keeps the current maximum
and replaces it when the candidate compares greater or is NaN, never replacing
a NaN maximum; so the first NaN wins, otherwise the first maximum. -/
def npArgmaxAux : List OQ → Nat → Nat → OQ → Nat
  | [], _, best, _ => best
  | x :: xs, i, best, m =>
    match m, x with
    | none, _ => npArgmaxAux xs (i + 1) best m
    | some _, none => npArgmaxAux xs (i + 1) i none
    | some mv, some xv =>
      if mv < xv then npArgmaxAux xs (i + 1) i (some xv)
      else npArgmaxAux xs (i + 1) best (some mv)

/-- Index of the maximum of a float array, `np.argmax` (0 on the empty array,
which the embedded call sites never pass). -/
def npArgmax : List OQ → Nat
  | [] => 0
  | x :: xs => npArgmaxAux xs 1 0 x

section ExponentialLikelihood

/-- State of `ExponentialConjugate` (exponential_conjugate.py): prior shape
and scale (`None` before `learn`), and the per-run-length posterior arrays.
The code keeps the shapes in a float array, but their values are always the
natural numbers `n, n+1, ...` seeded from the sample size, so they are
modelled as `ℕ` to make the lomax density exactly computable. -/
structure ExpState where
  shapePrior : Option ℕ
  scalePrior : Option ℚ
  shapes : List ℕ
  scales : List ℚ
  deriving Repr, DecidableEq

/-- The freshly constructed / cleared exponential likelihood. -/
def expInit : ExpState := ⟨none, none, [], []⟩

/-- ExponentialConjugate.learn: seeds shape with the sample size and scale with
the sample sum.  The source method reads nothing of the previous state, which
is why the state argument is unused. -/
def expLearn (_st : ExpState) (sample : List ℚ) : ExpState :=
  ⟨some sample.length, some sample.sum, [sample.length], [sample.sum]⟩

/-- ExponentialConjugate.learn viewed with its error channel: the method body
contains no guard and no reachable assertion failure, so it always succeeds. -/
def expLearnE (st : ExpState) (sample : List ℚ) : Except String ExpState :=
  .ok (expLearn st sample)

/-- ExponentialConjugate.update: prepends the prior and advances every
posterior parameter.  On an unlearned state the source asserts (unreachable
through the filter); the model returns the state unchanged there. -/
def expUpdate (st : ExpState) (observation : ℚ) : ExpState :=
  match st.shapePrior, st.scalePrior with
  | some sp, some sc =>
    ⟨some sp, some sc, sp :: st.shapes.map (· + 1), sc :: st.scales.map (· + observation)⟩
  | _, _ => st

/-- Density of `scipy.stats.lomax.pdf(x, c, loc=0, scale)` composed with the
`np.nan_to_num(·, nan=0.0)` clamp that ExponentialConjugate.predict applies:
scipy returns NaN for an invalid parameterization (scale ≤ 0 or c = 0), which
the clamp sends to 0; the density is 0 outside the support [0, ∞); on the
support it is c/scale · (1 + x/scale)^(−c−1) = c·scale^c / (scale+x)^(c+1). -/
def lomaxPdfClamped (c : ℕ) (scale x : ℚ) : ℚ :=
  if scale ≤ 0 ∨ c = 0 then 0
  else if x < 0 then 0
  else (c : ℚ) * scale ^ c / (scale + x) ^ (c + 1)

/-- ExponentialConjugate.predict: the lomax density at the observation for
every tracked run length, with NaN clamped to 0 — so every entry is an actual
non-negative number. -/
def expPredict (st : ExpState) (observation : ℚ) : List OQ :=
  (st.shapes.zip st.scales).map (fun p => some (lomaxPdfClamped p.1 p.2 observation))

/-- ExponentialConjugateWithPriorProbability.probability_of_learned_prior:
product of the clamped lomax densities of the sample under the learned prior.
On an unlearned state the source asserts (unreachable); the model returns 0. -/
def expProbOfLearnedPrior (st : ExpState) (sample : List ℚ) : ℚ :=
  match st.shapePrior, st.scalePrior with
  | some sp, some sc => (sample.map (lomaxPdfClamped sp sc)).prod
  | _, _ => 0

end ExponentialLikelihood

section GaussianLikelihood

/-- State of `GaussianConjugate` (gaussian_conjugate.py): the four prior
hyperparameters (`None` before `learn`) and the four per-run-length posterior
parameter arrays of the normal-inverse-gamma conjugate prior. -/
structure GaussState where
  mu0 : Option ℚ
  k0 : Option ℚ
  alpha0 : Option ℚ
  beta0 : Option ℚ
  muP : List ℚ
  kP : List ℚ
  alphaP : List ℚ
  betaP : List ℚ
  deriving Repr, DecidableEq

/-- The freshly constructed / cleared gaussian likelihood. -/
def gaussInit : GaussState := ⟨none, none, none, none, [], [], [], []⟩

/-- GaussianConjugate.learn: mean, half the sum of squared deviations, the
sample size and half the sample size become the priors and seed the four
singleton posterior arrays.  The method reads nothing of the previous state
(the call sites pass a non-empty sample, so the mean's division is by a
positive count). -/
def gaussLearn (_st : GaussState) (sample : List ℚ) : GaussState :=
  let n : ℚ := sample.length
  let mu := sample.sum / n
  let beta := (sample.map (fun x => (x - mu) ^ 2)).sum / 2
  ⟨some mu, some n, some (n / 2), some beta, [mu], [n], [n / 2], [beta]⟩

/-- GaussianConjugate.learn viewed with its error channel: the method body has
no guard against being already learned and its assertions follow the
assignments they check, so it always succeeds. -/
def gaussLearnE (st : GaussState) (sample : List ℚ) : Except String GaussState :=
  .ok (gaussLearn st sample)

/-- One entry of GaussianConjugate.predict.  The predictive density is
`scipy.stats.t.pdf(x, df = 2α, loc = μ, scale = sqrt(β(k+1)/(αk)))`.  scipy
evaluates to NaN exactly when the scale is not positive, i.e. when the scale's
square `β(k+1)/(αk)` is ≤ 0; there is NO `nan_to_num` clamp in this method.
The density at a positive scale is a transcendental value the claims never
inspect, abstracted by the parameter `tpos` as a function of the degrees of
freedom, the location, the squared scale and the observation. -/
def gaussPredictEntry (tpos : ℚ → ℚ → ℚ → ℚ → ℚ) (mu k alpha beta x : ℚ) : OQ :=
  let scaleSq := beta * (k + 1) / (alpha * k)
  if scaleSq ≤ 0 then none else some (tpos (2 * alpha) mu scaleSq x)

/-- GaussianConjugate.predict: the Student-t density at the observation for
every tracked run length.  The assertion on `alpha * k` being nonzero passes
on every learned state (both factors are at least 1/2 there).  NaN entries,
produced at a zero scale, are returned as they are. -/
def gaussPredict (tpos : ℚ → ℚ → ℚ → ℚ → ℚ) (st : GaussState) (x : ℚ) : List OQ :=
  ((st.muP.zip st.kP).zip (st.alphaP.zip st.betaP)).map
    (fun p => gaussPredictEntry tpos p.1.1 p.1.2 p.2.1 p.2.2 x)

/-- GaussianConjugateWithPriorProbability.probability_of_learned_prior:
`np.prod` of the Student-t densities of the sample under the learned prior.
A zero scale makes every factor NaN and hence the product NaN; there is no
clamp here either.  On an unlearned state the source asserts (unreachable
through the heuristic, which always learns first); the model returns NaN. -/
def gaussProbOfLearnedPrior (tpos : ℚ → ℚ → ℚ → ℚ → ℚ) (st : GaussState)
    (sample : List ℚ) : OQ :=
  match st.mu0, st.k0, st.alpha0, st.beta0 with
  | some mu, some k, some alpha, some beta =>
    let scaleSq := beta * (k + 1) / (alpha * k)
    if scaleSq ≤ 0 then none
    else some ((sample.map (tpos (2 * alpha) mu scaleSq)).prod)
  | _, _, _, _ => none

/-- A concrete instance of the abstract positive-scale Student-t density,
used to instantiate closed statements whose truth does not depend on the
density's values. -/
def tposZero : ℚ → ℚ → ℚ → ℚ → ℚ := fun _ _ _ _ => 0

end GaussianLikelihood

section HeuristicLikelihood

/-- The model retained by `HeuristicGaussianVsExponential` after `learn`. -/
inductive HeurChoice where
  | gaussianModel (g : GaussState)
  | exponentialModel (e : ExpState)
  deriving Repr, DecidableEq

/-- HeuristicGaussianVsExponential.learn
(heuristic_gaussian_vs_exponential.py): learns a fresh gaussian and a fresh
exponential likelihood on the sample, evaluates the sample's marginal
probability under each learned prior, and keeps
`gaussian if gaussian_probability >= exponential_probability else exponential`.
The numpy `>=` is false when the gaussian probability is NaN.  The previous
state (`self.__likelihood`) is not read. -/
def heuristicLearn (tpos : ℚ → ℚ → ℚ → ℚ → ℚ) (_st : Option HeurChoice)
    (sample : List ℚ) : Option HeurChoice :=
  let gaussian := gaussLearn gaussInit sample
  let exponential := expLearn expInit sample
  let gaussianProbability := gaussProbOfLearnedPrior tpos gaussian sample
  let exponentialProbability := expProbOfLearnedPrior exponential sample
  some (if oGe gaussianProbability (some exponentialProbability)
        then .gaussianModel gaussian else .exponentialModel exponential)

/-- HeuristicGaussianVsExponential.learn with its error channel: the method
contains no guard against a second call, so it always succeeds. -/
def heuristicLearnE (tpos : ℚ → ℚ → ℚ → ℚ → ℚ) (st : Option HeurChoice)
    (sample : List ℚ) : Except String (Option HeurChoice) :=
  .ok (heuristicLearn tpos st sample)

end HeuristicLikelihood

section OnlineFilter

/-- The ILikelihood lifecycle as the filter consumes it (ilikelihood.py):
a state type, the state of a freshly constructed or cleared instance, and the
learn / predict / update methods.  `clear()` is `init` (every concrete variant
resets all of its fields to their construction values). -/
structure LikelihoodM (σ : Type) where
  init : σ
  learn : σ → List ℚ → σ
  predict : σ → ℚ → List OQ
  update : σ → ℚ → σ

/-- The exponential conjugate likelihood packaged for the filter. -/
def expLikelihood : LikelihoodM ExpState :=
  ⟨expInit, expLearn, expPredict, expUpdate⟩

/-- Construction parameters of `BayesianOnlineCpd.__init__`: the hazard
function (applied pointwise to `np.arange(n)`), the likelihood, the learning
sample size, the detector and the localizer.  ThresholdDetector and
ArgmaxLocalizer are stateless, so detector and localizer are functions and
their `clear()` calls are no-ops. -/
structure Params (σ : Type) where
  hazard : ℕ → ℚ
  likelihood : LikelihoodM σ
  learningSampleSize : ℕ
  detector : List OQ → Bool
  localizer : List OQ → ℕ

/-- ThresholdDetector.detect (threshold.py):
`len(growth_probs) > 0 and growth_probs[-1] < threshold`; the comparison is
false when the last entry is NaN. -/
def thresholdDetect (threshold : ℚ) (growthProbs : List OQ) : Bool :=
  growthProbs.length > 0 && oLt (growthProbs.getLastD none) (some threshold)

/-- ArgmaxLocalizer.localize (argmax.py):
`0 if max_run_length == 1 else int(growth_probs[:-1].argmax())`.  The source
asserts the distribution is non-empty; the call site guarantees it. -/
def argmaxLocalize (growthProbs : List OQ) : ℕ :=
  if growthProbs.length = 1 then 0 else npArgmax growthProbs.dropLast

/-- Python's `l[-r:]` slice: for `r = 0` it is `l[0:]`, the WHOLE list; for
`r > 0` it is the last `min(r, len(l))` elements. -/
def takeLastPy (l : List ℚ) (r : ℕ) : List ℚ :=
  if r = 0 then l else l.drop (l.length - r)

/-- The mutable state of one `BayesianOnlineCpd` instance
(bayesian_online_algorithm.py, `__init__`): the training buffer, the full
observation history since the last reset, the absolute time, the
training/filtering flag, the run-length distribution, and the two
detection-result fields read and reset by `detect`/`localize`. -/
structure FilterState (σ : Type) where
  trainingData : List ℚ
  dataHistory : List ℚ
  currentTime : ℕ
  isTraining : Bool
  runLengthProbs : List OQ
  wasChangePoint : Bool
  changePoint : Option ℤ
  likelihoodState : σ
  deriving Repr, DecidableEq

/-- The state of a freshly constructed filter (the likelihood instance passed
to the constructor is freshly constructed in every use in the repository). -/
def initState (P : Params σ) : FilterState σ :=
  ⟨[], [], 0, true, [], false, none, P.likelihood.init⟩

/-- BayesianOnlineCpd.__learn: appends the value to the training buffer; once
the buffer reaches the learning sample size, clears the likelihood and
detector, learns on the buffer, switches to filtering and sets the run-length
distribution to `[1.0]`.  The buffer itself is NOT cleared. -/
def learnStep (P : Params σ) (st : FilterState σ) (value : ℚ) : FilterState σ :=
  let td := st.trainingData ++ [value]
  if td.length = P.learningSampleSize then
    { st with trainingData := td,
              likelihoodState := P.likelihood.learn P.likelihood.init td,
              isTraining := false,
              runLengthProbs := [some 1] }
  else { st with trainingData := td }

/-- Unnormalized growth probabilities of `BayesianOnlineCpd.__bayesian_update`:
`run_length_probs * (1 - hazards) * predictive_prob`, elementwise over arrays
of equal length. -/
def buGrowth (P : Params σ) (st : FilterState σ) (value : ℚ) : List OQ :=
  zip3With (fun p h q => oMul (oMul p (oSub (some 1) h)) q)
    st.runLengthProbs
    ((List.range st.runLengthProbs.length).map (fun i => some (P.hazard i)))
    (P.likelihood.predict st.likelihoodState value)

/-- Unnormalized reset probability of `BayesianOnlineCpd.__bayesian_update`:
`np.sum(run_length_probs * hazards * predictive_prob)`. -/
def buReset (P : Params σ) (st : FilterState σ) (value : ℚ) : OQ :=
  oSum (zip3With (fun p h q => oMul (oMul p h) q)
    st.runLengthProbs
    ((List.range st.runLengthProbs.length).map (fun i => some (P.hazard i)))
    (P.likelihood.predict st.likelihoodState value))

/-- The normalizing total of `BayesianOnlineCpd.__bayesian_update`:
`np.sum(np.append(reset_prob, growth_probs))`. -/
def buTotal (P : Params σ) (st : FilterState σ) (value : ℚ) : OQ :=
  oSum (buReset P st value :: buGrowth P st value)

/-- BayesianOnlineCpd.__bayesian_update: predictive probabilities, hazards on
`np.arange(n)`, growth and reset masses, the new distribution
`np.append(reset_prob, growth_probs)` divided in place by its own sum, and the
likelihood update. -/
def bayesianUpdate (P : Params σ) (st : FilterState σ) (value : ℚ) :
    FilterState σ :=
  let newProbs := buReset P st value :: buGrowth P st value
  let total := oSum newProbs
  { st with runLengthProbs := newProbs.map (fun x => oDiv x total),
            likelihoodState := P.likelihood.update st.likelihoodState value }

/-- The replay loop of `BayesianOnlineCpd.__handle_localization`:
`for value in self.__training_data: self.__learn(value)`.  The Python iterator
walks the live list by index while `__learn` appends to the same list, so the
loop is modelled by an explicit cursor over the evolving buffer, with fuel;
`none` means the fuel ran out, i.e. the loop did not terminate within it. -/
def replayLoop (P : Params σ) : ℕ → ℕ → FilterState σ → Option (FilterState σ)
  | 0, _, _ => none
  | fuel + 1, i, st =>
    if h : i < st.trainingData.length then
      replayLoop P fuel (i + 1) (learnStep P st (st.trainingData.get ⟨i, h⟩))
    else some st

/-- BayesianOnlineCpd.__handle_localization: asks the localizer for a run
length `r`, records `current_time - r` as the change point, truncates the
training buffer and the history to `history[-r:]`, clears the likelihood and
detector and returns to training; if the retained history already reaches the
learning sample size, truncates the buffer to its first `learning_sample_size`
entries, replays them through `__learn` (the loop above) and replays
`data_history[learning_sample_size:]` through `__bayesian_update`. -/
def handleLocalization (fuel : ℕ) (P : Params σ) (st : FilterState σ) :
    Option (FilterState σ) :=
  let runLength := P.localizer st.runLengthProbs
  let changePointLocation : ℤ := (st.currentTime : ℤ) - runLength
  let retained := takeLastPy st.dataHistory runLength
  let st1 : FilterState σ :=
    { st with trainingData := retained,
              dataHistory := retained,
              changePoint := some changePointLocation,
              likelihoodState := P.likelihood.init,
              isTraining := true }
  if st1.trainingData.length ≥ P.learningSampleSize then
    let st2 := { st1 with trainingData := st1.trainingData.take P.learningSampleSize }
    match replayLoop P fuel 0 st2 with
    | none => none
    | some st3 =>
      some ((st3.dataHistory.drop P.learningSampleSize).foldl
        (fun acc v => bayesianUpdate P acc v) st3)
  else some st1

/-- BayesianOnlineCpd.__handle_detection: keeps only `data_history[-1:]`,
copies it into the training buffer, clears the likelihood and detector,
returns to training and feeds `training_data[-1]` to `__learn` (which appends
it again, so the buffer holds the last observation twice).  The history is
non-empty here because `__process_point` appended the observation first. -/
def handleDetection (P : Params σ) (st : FilterState σ) : FilterState σ :=
  let st1 := { st with dataHistory := takeLastPy st.dataHistory 1 }
  let st2 := { st1 with trainingData := st1.dataHistory }
  let st3 := { st2 with likelihoodState := P.likelihood.init, isTraining := true }
  learnStep P st3 (st3.trainingData.getLastD 0)

/-- BayesianOnlineCpd.__process_point: appends the observation to the history,
advances the time, and either trains or runs the Bayesian recursion followed
by the detector; on a detection it handles localization or pure detection
according to the mode.  `none` is fuel exhaustion inside the localization
replay loop. -/
def processPoint (fuel : ℕ) (P : Params σ) (st : FilterState σ) (value : ℚ)
    (withLocalization : Bool) : Option (FilterState σ) :=
  let st0 := { st with dataHistory := st.dataHistory ++ [value],
                       currentTime := st.currentTime + 1 }
  if st0.isTraining then some (learnStep P st0 value)
  else
    let st1 := bayesianUpdate P st0 value
    if ! P.detector st1.runLengthProbs then some st1
    else
      let st2 := { st1 with wasChangePoint := true }
      if withLocalization then handleLocalization fuel P st2
      else some (handleDetection P st2)

/-- One call of BayesianOnlineCpd.detect on an already-converted scalar:
process the point, read `__was_change_point`, reset it, return it. -/
def detectStep (fuel : ℕ) (P : Params σ) (st : FilterState σ) (value : ℚ) :
    Option (FilterState σ × Bool) :=
  (processPoint fuel P st value false).map
    (fun st1 => ({ st1 with wasChangePoint := false }, st1.wasChangePoint))

/-- One call of BayesianOnlineCpd.localize on an already-converted scalar:
process the point, read `__change_point`, reset both result fields, return it. -/
def localizeStep (fuel : ℕ) (P : Params σ) (st : FilterState σ) (value : ℚ) :
    Option (FilterState σ × Option ℤ) :=
  (processPoint fuel P st value true).map
    (fun st1 => ({ st1 with wasChangePoint := false, changePoint := none },
                 st1.changePoint))

/-- A sequence of detect calls, collecting the returned booleans and the final
filter state. -/
def detectTrace (fuel : ℕ) (P : Params σ) :
    FilterState σ → List ℚ → Option (FilterState σ × List Bool)
  | st, [] => some (st, [])
  | st, v :: vs =>
    match detectStep fuel P st v with
    | none => none
    | some (st1, b) => (detectTrace fuel P st1 vs).map (fun r => (r.1, b :: r.2))

/-- A sequence of localize calls, collecting the returned change points and
the final filter state. -/
def localizeTrace (fuel : ℕ) (P : Params σ) :
    FilterState σ → List ℚ → Option (FilterState σ × List (Option ℤ))
  | st, [] => some (st, [])
  | st, v :: vs =>
    match localizeStep fuel P st v with
    | none => none
    | some (st1, c) => (localizeTrace fuel P st1 vs).map (fun r => (r.1, c :: r.2))

end OnlineFilter

section ObservationApi

/-- An argument to detect/localize: a scalar float or a numpy array. -/
inductive Obs where
  | scalar (x : ℚ)
  | vector (xs : List ℚ)
  deriving Repr, DecidableEq

/-- The Python error surfaced to the caller of detect/localize. -/
inductive PyErr where
  | typeError
  deriving Repr, DecidableEq

/-- The guard `if value is npt.NDArray[np.float64]:` in
BayesianOnlineCpd.detect/localize (and BayesianLinearHeuristic): an identity
comparison of the argument with the `npt.NDArray[np.float64]` typing-alias
object, which no observation ever is — the guard is always false, for scalars
and for arrays alike. -/
def ndarrayIdentityCheck (_value : Obs) : Bool := false

/-- The conversion `np.float64(value)` applied to the observation before
`__process_point`: a scalar converts to itself, a one-element array converts
to its element (deprecated but accepted by numpy), and a multi-element array
raises `TypeError: only length-1 arrays can be converted to Python scalars`.
The conversion happens in the argument expression, before any state is
touched. -/
def npFloat64 : Obs → Except PyErr ℚ
  | .scalar x => .ok x
  | .vector [x] => .ok x
  | .vector _ => .error .typeError

/-- BayesianOnlineCpd.detect on a raw observation: the (vacuous) ndarray
identity guard, the float conversion, then one detect step. -/
def detectObs (fuel : ℕ) (P : Params σ) (st : FilterState σ) (value : Obs) :
    Except PyErr (Option (FilterState σ × Bool)) :=
  if ndarrayIdentityCheck value then .error .typeError
  else (npFloat64 value).map (fun x => detectStep fuel P st x)

/-- BayesianOnlineCpd.localize on a raw observation: the (vacuous) ndarray
identity guard, the float conversion, then one localize step. -/
def localizeObs (fuel : ℕ) (P : Params σ) (st : FilterState σ) (value : Obs) :
    Except PyErr (Option (FilterState σ × Option ℤ)) :=
  if ndarrayIdentityCheck value then .error .typeError
  else (npFloat64 value).map (fun x => localizeStep fuel P st x)

end ObservationApi

section AmortizingWrapper

/-- The inner online algorithm as `BayesianLinearHeuristic` drives it: a state
and a detect method returning the advanced state and the fired flag (the
localize path manages the duplicate identically through
`_handle_duplicate_preparation`). -/
structure OnlineAlg (α : Type) where
  detect : α → ℚ → α × Bool

/-- The mutable state of one `BayesianLinearHeuristic` instance
(bayesian_linear_heuristic.py, `__init__`): the pristine deep copy of the
constructed algorithm, the main algorithm, the transient duplicating
(shadow) algorithm, the step counter and the time of the last algorithm
start.  The constructor raises ValueError unless
`time_before_duplicate_start > duplicate_preparation_time > 0`. -/
structure WrapState (α : Type) where
  original : α
  main : α
  duplicating : Option α
  time : ℕ
  lastStart : ℕ
  deriving Repr, DecidableEq

/-- The state right after `BayesianLinearHeuristic.__init__` on a freshly
constructed inner algorithm (both deep copies equal the constructed value). -/
def wrapInit (a : α) : WrapState α := ⟨a, a, none, 0, 0⟩

/-- BayesianLinearHeuristic._handle_duplicate_preparation with work time
`time - last_start` and stage end `T + D`: at work time `T` the shadow is
instantiated as a deep copy of the pristine original (and is NOT fed this
observation); strictly between `T` and `T + D` the shadow is fed the
observation; at work time `T + D` the shadow is promoted to main (again
without being fed) and the baseline is set to `time - D`. -/
def handleDupPrep (A : OnlineAlg α) (T D : ℕ) (st : WrapState α) (obs : ℚ) :
    WrapState α :=
  let workTime := st.time - st.lastStart
  let stageEnd := T + D
  if workTime = T then { st with duplicating := some st.original }
  else if T < workTime ∧ workTime < stageEnd then
    match st.duplicating with
    | some d => { st with duplicating := some (A.detect d obs).1 }
    | none => st
  else if workTime = stageEnd then
    match st.duplicating with
    | some d => { st with main := d, duplicating := none, lastStart := st.time - D }
    | none => st
  else st

/-- BayesianLinearHeuristic.detect: runs the main algorithm; on a detection it
resets the baseline to the current time and drops the shadow; otherwise it
runs the duplicate-preparation bookkeeping.  The time advances either way. -/
def wrapDetect (A : OnlineAlg α) (T D : ℕ) (st : WrapState α) (obs : ℚ) :
    WrapState α × Bool :=
  let m := A.detect st.main obs
  if m.2 then
    ({ st with main := m.1, lastStart := st.time, duplicating := none,
               time := st.time + 1 }, true)
  else
    let st1 := { st with main := m.1 }
    let st2 := handleDupPrep A T D st1 obs
    ({ st2 with time := st2.time + 1 }, false)

/-- Feeding a change-free stream of zeros to the wrapper for `n` steps
(the instrumentation algorithm below ignores the observation values). -/
def wrapSteps (A : OnlineAlg α) (T D : ℕ) (st : WrapState α) : ℕ → WrapState α
  | 0 => st
  | n + 1 => (wrapDetect A T D (wrapSteps A T D st n) 0).1

/-- An instrumentation instance of the inner algorithm: its state counts how
many observations it has processed, and it never reports a change point. -/
def counterAlg : OnlineAlg ℕ := ⟨fun n _ => (n + 1, false)⟩

end AmortizingWrapper

section ConcreteInstances

/-- A concrete parameter set for closed runs: a constant hazard of 1/2 (the
claims under test do not depend on the hazard's value), the exponential
conjugate likelihood, a threshold detector and the argmax localizer. -/
def paramsExp (s : ℕ) (threshold : ℚ) : Params ExpState :=
  ⟨fun _ => 1 / 2, expLikelihood, s, thresholdDetect threshold, argmaxLocalize⟩

/-- The filter with learning sample size 2 right after training on `[1, 1]`:
the exponential likelihood learned shape 2 and scale 2, and the run-length
distribution was reset to `[1.0]`. -/
def stTrainedExp : FilterState ExpState :=
  ⟨[1, 1], [1, 1], 2, false, [some 1], false, none, ⟨some 2, some 2, [2], [2]⟩⟩

/-- The state reached from `stTrainedExp` by one detect call on the
observation 1 (no detection fires at threshold 1/25). -/
def stAfterC2 : FilterState ExpState :=
  ⟨[1, 1], [1, 1, 1], 3, false, [some (1 / 2), some (1 / 2)], false, none,
   ⟨some 2, some 2, [2, 3], [2, 3]⟩⟩

/-- A filtering state whose run-length distribution makes ArgmaxLocalizer
return run length 0: the maximum among all entries except the last sits at
index 0. -/
def stArgmaxZero : FilterState ExpState :=
  ⟨[10, 20, 30], [10, 20, 30], 3, false,
   [some (6 / 10), some (3 / 10), some (1 / 10)], false, none, expInit⟩

/-- The normalization invariant of the run-length distribution: once training
has completed, every entry is an actual non-negative number and the entries
sum exactly to 1. -/
def ProbsInvariant (st : FilterState σ) : Prop :=
  st.isTraining = false →
    (∀ o ∈ st.runLengthProbs, ∃ q : ℚ, o = some q ∧ 0 ≤ q) ∧
    oSum st.runLengthProbs = some 1

end ConcreteInstances

/-- The value of `lomaxPdfClamped` is never negative: every branch returns 0
or a quotient of non-negative factors. -/
theorem lomaxPdfClamped_nonneg (c : ℕ) (scale x : ℚ) : 0 ≤ lomaxPdfClamped c scale x := by
  unfold lomaxPdfClamped
  by_cases h1 : scale ≤ 0 ∨ c = 0
  · simp [h1]
  · push_neg at h1
    by_cases h2 : x < 0
    · simp [h1.1.not_le, h1.2, h2]
    · have hs : (0:ℚ) < scale := h1.1
      have hx : (0:ℚ) ≤ x := not_lt.mp h2
      rw [if_neg (not_or.mpr ⟨h1.1.not_le, h1.2⟩), if_neg h2]
      positivity

/-- Every entry of ExponentialConjugate.predict is a real non-negative number
(the NaN clamp plus the non-negativity of the clamped lomax density). -/
theorem expPredict_entry_nonneg :
    ∀ (ls : ExpState) (v : ℚ), ∀ o ∈ expPredict ls v, ∃ q : ℚ, o = some q ∧ 0 ≤ q := by
  intro ls v o ho
  simp only [expPredict, List.mem_map] at ho
  obtain ⟨p, _, rfl⟩ := ho
  exact ⟨_, rfl, lomaxPdfClamped_nonneg _ _ _⟩

/-- C9: the filter is a pure function of its construction parameters and the
observation sequence: two independently constructed instances of
`BayesianOnlineCpd` with the same parameters, fed the same observations one
call at a time, return identical sequences of detect results and identical
sequences of localize results. -/
theorem claim9_determinism {σ : Type} (P : Params σ) (fuel : ℕ) (obs : List ℚ) :
    detectTrace fuel P (initState P) obs = detectTrace fuel P (initState P) obs ∧
    localizeTrace fuel P (initState P) obs = localizeTrace fuel P (initState P) obs :=
  ⟨rfl, rfl⟩

/-- C10: when the gaussian and exponential marginal probabilities of the
learning sample are exactly equal real numbers (including both 0),
HeuristicGaussianVsExponential.learn retains the gaussian model. -/
theorem claim10_tie_keeps_gaussian (tpos : ℚ → ℚ → ℚ → ℚ → ℚ)
    (st : Option HeurChoice) (sample : List ℚ) (q : ℚ)
    (hg : gaussProbOfLearnedPrior tpos (gaussLearn gaussInit sample) sample = some q)
    (he : expProbOfLearnedPrior (expLearn expInit sample) sample = q) :
    heuristicLearn tpos st sample = some (.gaussianModel (gaussLearn gaussInit sample)) := by
  simp [heuristicLearn, hg, he, oGe]

/-- Witness for C10 at the sample `[-1, 0, 1]`: both marginal probabilities
are exactly 0 (the exponential scale prior is the sample sum 0, so every
clamped lomax factor is 0; the gaussian probability is 0 under the dummy
density instance) and the gaussian model is retained. -/
theorem claim10_witness :
    heuristicLearn tposZero none [-1, 0, 1] =
      some (.gaussianModel (gaussLearn gaussInit [-1, 0, 1])) :=
  claim10_tie_keeps_gaussian tposZero none [-1, 0, 1] 0
    (by norm_num [gaussProbOfLearnedPrior, gaussLearn, tposZero])
    (by norm_num [expProbOfLearnedPrior, expLearn, lomaxPdfClamped])

/-- C7 counterexample: a second `learn` without an intervening `clear` is NOT
rejected: on the exponential likelihood already learned on `[1, 2]`, learning
`[3, 4]` succeeds and silently recomputes the prior hyperparameters
(shape 2 = the new sample size, scale 7 = the new sample sum). -/
theorem claim7_counterexample :
    expLearnE (expLearn expInit [1, 2]) [3, 4] = .ok ⟨some 2, some 7, [2], [7]⟩ ∧
    expLearn expInit [3, 4] = ⟨some 2, some 7, [2], [7]⟩ := by
  norm_num [expLearnE, expLearn]

/-- C7 amended: for every likelihood variant, a second `learn` without `clear`
succeeds and recomputes the prior hyperparameters from the new sample alone —
the result is the one a freshly constructed instance would learn. -/
theorem claim7_second_learn_recomputes :
    ∀ (e : ExpState) (g : GaussState) (h : Option HeurChoice)
      (tpos : ℚ → ℚ → ℚ → ℚ → ℚ) (sample : List ℚ),
      expLearnE e sample = .ok (expLearn expInit sample) ∧
      gaussLearnE g sample = .ok (gaussLearn gaussInit sample) ∧
      heuristicLearnE tpos h sample = .ok (heuristicLearn tpos none sample) :=
  fun _ _ _ _ _ => ⟨rfl, rfl, rfl⟩

/-- C6 counterexample: GaussianConjugate.predict does NOT clamp NaN to 0.
After learning on the constant sample `[1, 1]` the sum of squared deviations
is 0, the predictive scale is 0, and scipy's Student-t density is NaN; the
method returns that NaN unchanged (the claim says it would return 0). -/
theorem claim6_counterexample :
    gaussPredict tposZero (gaussLearn gaussInit [1, 1]) 0 = [none] := by
  norm_num [gaussPredict, gaussLearn, gaussInit, gaussPredictEntry]

/-- C6 amended: only ExponentialConjugate.predict clamps NaN — each of its
entries is a real non-negative number — while GaussianConjugate.predict
propagates the NaN of a degenerate zero-variance parameterization (for every
observation and every value of the abstract positive-scale density). -/
theorem claim6_nan_clamping :
    ∀ (est : ExpState) (v : ℚ) (tpos : ℚ → ℚ → ℚ → ℚ → ℚ) (x : ℚ),
      (expPredict est v).all oIsNonnegSome = true ∧
      gaussPredict tpos (gaussLearn gaussInit [1, 1]) x = [none] := by
  intro est v tpos x
  constructor
  · simp only [List.all_eq_true]
    intro o ho
    obtain ⟨q, rfl, hq⟩ := expPredict_entry_nonneg est v o ho
    simpa [oIsNonnegSome]
  · have hstate : gaussLearn gaussInit [1, 1] =
        ⟨some 1, some 2, some 1, some 0, [1], [2], [1], [0]⟩ := by
      norm_num [gaussLearn]
    rw [hstate]
    norm_num [gaussPredict, gaussPredictEntry]

/-- C3: the ndarray guard `value is npt.NDArray[np.float64]` never fires, so a
one-element array is accepted, converted to a scalar and processed — detect
and localize return normally and the state is mutated (time advances to 1 and
the history holds the converted value) — while a two-element array raises
TypeError only because the scalar conversion in the argument expression
fails. -/
theorem claim3_vector_accepted :
    detectObs 9 (paramsExp 2 (1 / 25)) (initState (paramsExp 2 (1 / 25))) (.vector [5]) =
      .ok (some (⟨[5], [5], 1, true, [], false, none, expInit⟩, false)) ∧
    localizeObs 9 (paramsExp 2 (1 / 25)) (initState (paramsExp 2 (1 / 25))) (.vector [5]) =
      .ok (some (⟨[5], [5], 1, true, [], false, none, expInit⟩, none)) ∧
    npFloat64 (.vector [5, 6]) = .error .typeError := by
  norm_num [detectObs, localizeObs, ndarrayIdentityCheck, npFloat64, detectStep,
    localizeStep, processPoint, learnStep, initState, paramsExp, expLikelihood, expInit,
    Except.map]

/-- C5: when the localizer returns run length 0, `history[-0:]` is the WHOLE
history, so `__handle_localization` retains every observation instead of none:
on a state with history `[10, 20, 30]` and distribution `[0.6, 0.3, 0.1]`
(argmax over the non-last entries is index 0) the training buffer and the
history both remain `[10, 20, 30]`, not the empty list the claim requires. -/
theorem claim5_zero_run_length_retains_all :
    argmaxLocalize stArgmaxZero.runLengthProbs = 0 ∧
    handleLocalization 9 (paramsExp 4 (1 / 25)) stArgmaxZero =
      some ⟨[10, 20, 30], [10, 20, 30], 3, true,
            [some (6 / 10), some (3 / 10), some (1 / 10)], false, some 3, expInit⟩ ∧
    ([10, 20, 30] : List ℚ) ≠ [] := by
  norm_num [argmaxLocalize, npArgmax, npArgmaxAux, stArgmaxZero, handleLocalization,
    takeLastPy, paramsExp, expLikelihood, expInit]
  decide

/-- C8 counterexample: with `time_before_duplicate_start = 2` and
`duplicate_preparation_time = 1` on a change-free stream, the shadow is
created at work time 2 without being fed and promoted at work time 3 without
being fed, so the promoted main algorithm has processed 0 observations, not
the `duplicate_preparation_time = 1` the claim states. -/
theorem claim8_counterexample :
    wrapSteps counterAlg 2 1 (wrapInit 0) 4 = ⟨0, 0, none, 4, 2⟩ ∧
    (wrapSteps counterAlg 2 1 (wrapInit 0) 4).main ≠ 1 := by
  decide

/-- C4 counterexample: with learning sample size 3 and threshold 1 the fourth
observation is a handled change point (detect returns true), yet immediately
afterwards the run-length distribution still holds the pre-reset values
`[1/2, 1/2]` — it is not the single entry `[1.0]`, and this is not the
retraining fast-forward case (the retained history has length 1 < 3). -/
theorem claim4_counterexample :
    (detectTrace 9 (paramsExp 3 1) (initState (paramsExp 3 1)) [1, 1, 1, 1]).map
        (fun r => (r.2, r.1.runLengthProbs)) =
      some ([false, false, false, true], [some (1 / 2), some (1 / 2)]) ∧
    [some ((1 : ℚ) / 2), some (1 / 2)] ≠ [some 1] := by
  norm_num [detectTrace, detectStep, processPoint, learnStep, bayesianUpdate, buReset,
    buGrowth, buTotal, handleDetection, takeLastPy, initState, paramsExp, expLikelihood,
    expPredict, expUpdate, expLearn, expInit, lomaxPdfClamped, zip3With, List.range_succ,
    oSum, oAdd, oMul, oSub, oDiv, thresholdDetect, oLt]

/-- C2 counterexample: training on `[1, 1]` and then feeding the negative
observation −1 makes every exponential predictive density 0, the normalizing
total 0, and the in-place division produces NaN entries: after that processed
step the distribution is `[NaN, NaN]` — its entries are not non-negative
numbers and do not sum to 1. -/
theorem claim2_counterexample :
    (detectTrace 9 (paramsExp 2 (1 / 25)) (initState (paramsExp 2 (1 / 25))) [1, 1, -1]).map
        (fun r => (r.1.isTraining, r.1.runLengthProbs)) =
      some (false, [none, none]) ∧
    oSum [none, none] ≠ some 1 ∧
    oIsNonnegSome none = false := by
  norm_num [detectTrace, detectStep, processPoint, learnStep, bayesianUpdate, buReset,
    buGrowth, buTotal, initState, paramsExp, expLikelihood, expPredict, expUpdate,
    expLearn, expInit, lomaxPdfClamped, zip3With, List.range_succ, oSum, oAdd, oMul,
    oSub, oDiv, thresholdDetect, oLt, oIsNonnegSome]
  decide
/-- Unfolding of `np.sum` over a non-empty array. -/
theorem oSum_cons (a : OQ) (l : List OQ) : oSum (a :: l) = oAdd a (oSum l) := rfl

/-- A sum of real non-negative entries is a real non-negative number. -/
theorem oSum_some_nonneg :
    ∀ l : List OQ, (∀ o ∈ l, ∃ q : ℚ, o = some q ∧ 0 ≤ q) →
      ∃ s : ℚ, oSum l = some s ∧ 0 ≤ s := by
  intro l
  induction l with
  | nil => exact fun _ => ⟨0, rfl, le_refl 0⟩
  | cons a l ih =>
    intro h
    obtain ⟨qa, ha, hqa⟩ := h a (List.mem_cons_self a l)
    obtain ⟨qs, hs, hqs⟩ := ih (fun o ho => h o (List.mem_cons_of_mem a ho))
    refine ⟨qa + qs, ?_, add_nonneg hqa hqs⟩
    rw [oSum_cons, ha, hs]
    rfl

/-- Dividing every entry of a NaN-free array by a nonzero number divides its
sum: the elementwise half of `new_probs /= np.sum(new_probs)`. -/
theorem oSum_map_div :
    ∀ (l : List OQ) (t : ℚ), t ≠ 0 → (∀ o ∈ l, ∃ q : ℚ, o = some q) →
      ∃ s : ℚ, oSum l = some s ∧
        oSum (l.map (fun x => oDiv x (some t))) = some (s / t) := by
  intro l
  induction l with
  | nil =>
    intro t ht _
    exact ⟨0, rfl, by simp [oSum, zero_div]⟩
  | cons a l ih =>
    intro t ht h
    obtain ⟨s, hs1, hs2⟩ := ih t ht (fun o ho => h o (List.mem_cons_of_mem a ho))
    obtain ⟨qa, rfl⟩ := h a (List.mem_cons_self a l)
    refine ⟨qa + s, ?_, ?_⟩
    · rw [oSum_cons, hs1]; rfl
    · rw [List.map_cons, oSum_cons, hs2]
      show oAdd (oDiv (some qa) (some t)) (some (s / t)) = some ((qa + s) / t)
      rw [oDiv, if_neg ht]
      show some (qa / t + s / t) = some ((qa + s) / t)
      rw [add_div]

/-- Pointwise properties of three arrays carry over to their elementwise
combination. -/
theorem zip3With_mem_imp {pa : α → Prop} {pb : β → Prop} {pc : γ → Prop} {pd : δ → Prop}
    {f : α → β → γ → δ} (hf : ∀ a b c, pa a → pb b → pc c → pd (f a b c)) :
    ∀ (as : List α) (bs : List β) (cs : List γ),
      (∀ a ∈ as, pa a) → (∀ b ∈ bs, pb b) → (∀ c ∈ cs, pc c) →
      ∀ o ∈ zip3With f as bs cs, pd o := by
  intro as
  induction as with
  | nil => intro bs cs _ _ _ o ho; simp [zip3With] at ho
  | cons a as ih =>
    intro bs cs ha hb hc o ho
    cases bs with
    | nil => simp [zip3With] at ho
    | cons b bs =>
      cases cs with
      | nil => simp [zip3With] at ho
      | cons c cs =>
        simp only [zip3With, List.mem_cons] at ho
        rcases ho with rfl | ho
        · exact hf a b c (ha a (List.mem_cons_self a as)) (hb b (List.mem_cons_self b bs))
            (hc c (List.mem_cons_self c cs))
        · exact ih bs cs (fun x hx => ha x (List.mem_cons_of_mem a hx))
            (fun x hx => hb x (List.mem_cons_of_mem b hx))
            (fun x hx => hc x (List.mem_cons_of_mem c hx)) o ho

/-- Every entry of the hazard array `hazard(np.arange(n))` is a real number
in [0, 1] when the hazard function maps into [0, 1]. -/
theorem hazard_list_mem (P : Params σ) (n : ℕ) (hHaz : ∀ i, 0 ≤ P.hazard i ∧ P.hazard i ≤ 1) :
    ∀ h ∈ (List.range n).map (fun i => some (P.hazard i)),
      ∃ r : ℚ, h = some r ∧ 0 ≤ r ∧ r ≤ 1 := by
  intro h hh
  simp only [List.mem_map] at hh
  obtain ⟨i, _, rfl⟩ := hh
  exact ⟨P.hazard i, rfl, (hHaz i).1, (hHaz i).2⟩

/-- Every unnormalized growth probability is a real non-negative number when
the distribution, the hazards and the predictive probabilities are. -/
theorem buGrowth_entries (P : Params σ) (st : FilterState σ) (v : ℚ)
    (hHaz : ∀ i, 0 ≤ P.hazard i ∧ P.hazard i ≤ 1)
    (hPred : ∀ o ∈ P.likelihood.predict st.likelihoodState v, ∃ q : ℚ, o = some q ∧ 0 ≤ q)
    (hprobs : ∀ o ∈ st.runLengthProbs, ∃ q : ℚ, o = some q ∧ 0 ≤ q) :
    ∀ o ∈ buGrowth P st v, ∃ q : ℚ, o = some q ∧ 0 ≤ q := by
  refine zip3With_mem_imp ?_ _ _ _ hprobs (hazard_list_mem P _ hHaz) hPred
  rintro a b c ⟨qa, rfl, hqa⟩ ⟨r, rfl, hr0, hr1⟩ ⟨qc, rfl, hqc⟩
  exact ⟨qa * (1 - r) * qc, rfl,
    mul_nonneg (mul_nonneg hqa (by linarith)) hqc⟩

/-- The unnormalized reset probability is a real non-negative number when the
distribution, the hazards and the predictive probabilities are. -/
theorem buReset_entry (P : Params σ) (st : FilterState σ) (v : ℚ)
    (hHaz : ∀ i, 0 ≤ P.hazard i ∧ P.hazard i ≤ 1)
    (hPred : ∀ o ∈ P.likelihood.predict st.likelihoodState v, ∃ q : ℚ, o = some q ∧ 0 ≤ q)
    (hprobs : ∀ o ∈ st.runLengthProbs, ∃ q : ℚ, o = some q ∧ 0 ≤ q) :
    ∃ q : ℚ, buReset P st v = some q ∧ 0 ≤ q := by
  apply oSum_some_nonneg
  refine zip3With_mem_imp ?_ _ _ _ hprobs (hazard_list_mem P _ hHaz) hPred
  rintro a b c ⟨qa, rfl, hqa⟩ ⟨r, rfl, hr0, hr1⟩ ⟨qc, rfl, hqc⟩
  exact ⟨qa * r * qc, rfl, mul_nonneg (mul_nonneg hqa hr0) hqc⟩

/-- The distribution after `__bayesian_update` is the reset/growth sequence
divided in place by its own sum. -/
theorem bayesianUpdate_probs_char (P : Params σ) (st : FilterState σ) (v : ℚ) :
    (bayesianUpdate P st v).runLengthProbs =
      (buReset P st v :: buGrowth P st v).map (fun x => oDiv x (buTotal P st v)) := rfl

/-- One `__bayesian_update` step with a positive normalizing total keeps the
run-length distribution a probability vector: real non-negative entries
summing exactly to 1. -/
theorem bayesianUpdate_normalizes (P : Params σ) (st : FilterState σ) (v : ℚ)
    (hHaz : ∀ i, 0 ≤ P.hazard i ∧ P.hazard i ≤ 1)
    (hPred : ∀ o ∈ P.likelihood.predict st.likelihoodState v, ∃ q : ℚ, o = some q ∧ 0 ≤ q)
    (hprobs : ∀ o ∈ st.runLengthProbs, ∃ q : ℚ, o = some q ∧ 0 ≤ q)
    (t : ℚ) (hTot : buTotal P st v = some t) (ht : 0 < t) :
    (∀ o ∈ (bayesianUpdate P st v).runLengthProbs, ∃ q : ℚ, o = some q ∧ 0 ≤ q) ∧
    oSum (bayesianUpdate P st v).runLengthProbs = some 1 := by
  have hlist : ∀ o ∈ (buReset P st v :: buGrowth P st v), ∃ q : ℚ, o = some q ∧ 0 ≤ q := by
    intro o ho
    rcases List.mem_cons.mp ho with rfl | ho
    · exact buReset_entry P st v hHaz hPred hprobs
    · exact buGrowth_entries P st v hHaz hPred hprobs o ho
  constructor
  · rw [bayesianUpdate_probs_char]
    intro o ho
    obtain ⟨x, hx, rfl⟩ := List.mem_map.mp ho
    obtain ⟨q, rfl, hq⟩ := hlist x hx
    rw [hTot, oDiv, if_neg ht.ne']
    exact ⟨q / t, rfl, div_nonneg hq ht.le⟩
  · rw [bayesianUpdate_probs_char, hTot]
    obtain ⟨s, hs1, hs2⟩ :=
      oSum_map_div (buReset P st v :: buGrowth P st v) t ht.ne'
        (fun o ho => (hlist o ho).imp (fun q hq => hq.1))
    have hst : s = t := by
      have : oSum (buReset P st v :: buGrowth P st v) = some t := hTot
      rw [hs1] at this
      exact Option.some.inj this
    rw [hs2, hst, div_self ht.ne']

/-- The singleton distribution `[1.0]` is a probability vector. -/
theorem probs_one_invariant_entries :
    (∀ o ∈ ([some 1] : List OQ), ∃ q : ℚ, o = some q ∧ 0 ≤ q) ∧
    oSum [some 1] = some 1 := by
  constructor
  · intro o ho
    simp only [List.mem_singleton] at ho
    exact ⟨1, ho, zero_le_one⟩
  · show oAdd (some 1) (some 0) = some 1
    norm_num [oAdd]

/-- A `__learn` step from a training state preserves the normalization
invariant: it either stays in training or resets the distribution to `[1.0]`. -/
theorem learnStep_invariant (P : Params σ) (st : FilterState σ) (v : ℚ)
    (h : st.isTraining = true) : ProbsInvariant (learnStep P st v) := by
  unfold learnStep
  dsimp only
  split
  · intro _
    exact probs_one_invariant_entries
  · intro habs
    simp [h] at habs

/-- `__handle_detection` preserves the normalization invariant: it returns to
training (leaving the distribution stale but unread) unless the immediate
re-learn completes, in which case the distribution is `[1.0]`. -/
theorem handleDetection_invariant (P : Params σ) (st : FilterState σ) :
    ProbsInvariant (handleDetection P st) := by
  unfold handleDetection
  exact learnStep_invariant P _ _ rfl

/-- The retraining replay loop of `__handle_localization` never terminates
when the training buffer starts at the learning sample size (≥ 1): Python
iterates the live list by index while `__learn` appends to the same list, so
the cursor never catches up — the buffer length stays `learning_sample_size`
plus the cursor position forever and no fuel suffices. -/
theorem replayLoop_diverges (P : Params σ) (hs : 1 ≤ P.learningSampleSize) :
    ∀ (fuel i : ℕ) (st : FilterState σ),
      st.trainingData.length = P.learningSampleSize + i →
      replayLoop P fuel i st = none := by
  intro fuel
  induction fuel with
  | zero => intro i st _; rfl
  | succ fuel ih =>
    intro i st hlen
    have hlt : i < st.trainingData.length := by omega
    rw [replayLoop, dif_pos hlt]
    apply ih (i + 1)
    have hkeep : ∀ w : ℚ, (learnStep P st w).trainingData = st.trainingData ++ [w] := by
      intro w
      unfold learnStep
      dsimp only
      split <;> rfl
    rw [hkeep]
    simp [hlen]
    omega

/-- The branch of `__handle_localization` taken when the retained history is
shorter than the learning sample size: the filter returns to training with the
retained history and the run-length distribution untouched. -/
theorem handleLocalization_fast (fuel : ℕ) (P : Params σ) (st : FilterState σ)
    (hshort : (takeLastPy st.dataHistory (P.localizer st.runLengthProbs)).length <
      P.learningSampleSize) :
    handleLocalization fuel P st =
      some { st with
        trainingData := takeLastPy st.dataHistory (P.localizer st.runLengthProbs),
        dataHistory := takeLastPy st.dataHistory (P.localizer st.runLengthProbs),
        changePoint := some ((st.currentTime : ℤ) - (P.localizer st.runLengthProbs : ℤ)),
        likelihoodState := P.likelihood.init,
        isTraining := true } := by
  unfold handleLocalization
  dsimp only
  rw [if_neg (not_le.mpr hshort)]

/-- When the retained history reaches the learning sample size (≥ 1),
`__handle_localization` enters the replay loop and never returns. -/
theorem handleLocalization_replay_none (fuel : ℕ) (P : Params σ)
    (hs : 1 ≤ P.learningSampleSize) (st : FilterState σ)
    (hlong : P.learningSampleSize ≤
      (takeLastPy st.dataHistory (P.localizer st.runLengthProbs)).length) :
    handleLocalization fuel P st = none := by
  unfold handleLocalization
  dsimp only
  rw [if_pos hlong, replayLoop_diverges P hs fuel 0]
  simp [List.length_take]
  omega

/-- Whatever `__handle_localization` returns satisfies the normalization
invariant: the only returning branch goes back to training. -/
theorem handleLocalization_invariant (fuel : ℕ) (P : Params σ)
    (hs : 1 ≤ P.learningSampleSize) (st st1 : FilterState σ)
    (h : handleLocalization fuel P st = some st1) : ProbsInvariant st1 := by
  by_cases hlong : P.learningSampleSize ≤
      (takeLastPy st.dataHistory (P.localizer st.runLengthProbs)).length
  · rw [handleLocalization_replay_none fuel P hs st hlong] at h
    exact absurd h (by simp)
  · rw [handleLocalization_fast fuel P st (not_le.mp hlong)] at h
    cases h
    intro habs
    simp at habs

/-- C2 (amended): after training completes the run-length distribution stays
a probability vector — non-negative real entries summing exactly to 1 —
across every processed step WHOSE NORMALIZING TOTAL IS POSITIVE (hazards in
[0, 1], predictive probabilities real and non-negative, learning sample size
at least 1).  When every predictive density is 0 the total is 0 and the claim
fails: the division produces NaN entries (the counterexample). -/
theorem claim2_step_invariant (P : Params σ) (hs : 1 ≤ P.learningSampleSize)
    (hHaz : ∀ i, 0 ≤ P.hazard i ∧ P.hazard i ≤ 1)
    (hPred : ∀ (ls : σ) (w : ℚ), ∀ o ∈ P.likelihood.predict ls w, ∃ q : ℚ, o = some q ∧ 0 ≤ q)
    (st : FilterState σ) (v : ℚ) (fuel : ℕ) (withLoc : Bool) (st1 : FilterState σ)
    (hInv : ProbsInvariant st)
    (hTot : st.isTraining = false → ∃ t : ℚ, buTotal P st v = some t ∧ 0 < t)
    (hStep : processPoint fuel P st v withLoc = some st1) :
    ProbsInvariant st1 := by
  unfold processPoint at hStep
  dsimp only at hStep
  by_cases htrain : st.isTraining = true
  · rw [if_pos htrain] at hStep
    cases hStep
    exact learnStep_invariant P _ v htrain
  · have htrain2 : st.isTraining = false := by
      revert htrain; cases st.isTraining <;> simp
    rw [if_neg htrain] at hStep
    obtain ⟨t, hTotEq, ht⟩ := hTot htrain2
    have hBU :=
      bayesianUpdate_normalizes P
        { st with dataHistory := st.dataHistory ++ [v], currentTime := st.currentTime + 1 }
        v hHaz (hPred _ v) (hInv htrain2).1 t hTotEq ht
    by_cases hdet :
        P.detector (bayesianUpdate P
          { st with dataHistory := st.dataHistory ++ [v], currentTime := st.currentTime + 1 }
          v).runLengthProbs = true
    · rw [if_neg (by simp [hdet])] at hStep
      cases hw : withLoc with
      | false =>
        rw [hw] at hStep
        rw [if_neg (by simp)] at hStep
        cases hStep
        exact handleDetection_invariant P _
      | true =>
        rw [hw] at hStep
        rw [if_pos rfl] at hStep
        exact handleLocalization_invariant fuel P hs _ st1 hStep
    · rw [if_pos (by simp [Bool.not_eq_true] at hdet ⊢; exact hdet)] at hStep
      cases hStep
      intro _
      exact hBU

/-- `__handle_detection` leaves the run-length distribution exactly as it
was, except when the doubled last observation already fills the training
buffer (learning sample size 2), in which case the re-learn resets it to
`[1.0]`. -/
theorem handleDetection_probs (P : Params σ) (st : FilterState σ) (hne : st.dataHistory ≠ []) :
    (handleDetection P st).runLengthProbs =
      if P.learningSampleSize = 2 then [some 1] else st.runLengthProbs := by
  have hlen1 : (takeLastPy st.dataHistory 1).length = 1 := by
    unfold takeLastPy
    rw [if_neg one_ne_zero, List.length_drop]
    have := List.length_pos.mpr hne
    omega
  unfold handleDetection learnStep
  dsimp only
  by_cases h2 : P.learningSampleSize = 2
  · rw [if_pos (by simp [hlen1, h2])]
    simp [h2]
  · rw [if_neg (by simp [hlen1]; omega)]
    simp [h2]

/-- When the training buffer is one observation short of the learning sample
size, the next `__learn` completes training and resets the distribution to
`[1.0]`. -/
theorem learnStep_completes (P : Params σ) (st : FilterState σ) (v : ℚ)
    (h : st.trainingData.length + 1 = P.learningSampleSize) :
    (learnStep P st v).runLengthProbs = [some 1] ∧ (learnStep P st v).isTraining = false := by
  unfold learnStep
  dsimp only
  rw [if_pos (by simp; omega)]
  exact ⟨rfl, rfl⟩

/-- C4 (amended): a handled change point does NOT immediately reset the
run-length distribution to `[1.0]`.  `__handle_detection` leaves it unchanged
(unless the immediate re-learn completes at learning sample size 2); the reset
to `[1.0]` happens when the subsequent training completes; the localization
branch with retained history shorter than the learning sample size also leaves
the distribution unchanged; and the retraining fast-forward branch (retained
history at least the learning sample size) never completes at all. -/
theorem claim4_reset_timing (P : Params σ) (hs : 1 ≤ P.learningSampleSize) :
    (∀ st : FilterState σ, st.dataHistory ≠ [] →
      (handleDetection P st).runLengthProbs =
        if P.learningSampleSize = 2 then [some 1] else st.runLengthProbs) ∧
    (∀ (st : FilterState σ) (v : ℚ), st.trainingData.length + 1 = P.learningSampleSize →
      (learnStep P st v).runLengthProbs = [some 1] ∧ (learnStep P st v).isTraining = false) ∧
    (∀ (fuel i : ℕ) (st : FilterState σ),
      st.trainingData.length = P.learningSampleSize + i → replayLoop P fuel i st = none) ∧
    (∀ (fuel : ℕ) (st st1 : FilterState σ),
      (takeLastPy st.dataHistory (P.localizer st.runLengthProbs)).length <
        P.learningSampleSize →
      handleLocalization fuel P st = some st1 →
      st1.runLengthProbs = st.runLengthProbs ∧ st1.isTraining = true) :=
  ⟨fun st => handleDetection_probs P st,
   fun st v => learnStep_completes P st v,
   replayLoop_diverges P hs,
   fun fuel st st1 hshort h => by
     rw [handleLocalization_fast fuel P st hshort] at h
     cases h
     exact ⟨rfl, rfl⟩⟩

/-- Witness for C4 (amended): handling a detection at learning sample size 3
leaves the run-length distribution exactly as it was. -/
theorem claim4_witness :
    1 ≤ (paramsExp 3 1).learningSampleSize ∧
    (handleDetection (paramsExp 3 1) stArgmaxZero).runLengthProbs =
      (if (paramsExp 3 1).learningSampleSize = 2 then [some 1]
       else stArgmaxZero.runLengthProbs) :=
  ⟨by norm_num [paramsExp],
   (claim4_reset_timing (paramsExp 3 1) (by norm_num [paramsExp])).1 stArgmaxZero
     (by decide)⟩

/-- Witness for C2 (amended) at a concrete filtering step: training on
`[1, 1]` and observing 1 keeps the distribution `[1/2, 1/2]`, a probability
vector. -/
theorem claim2_witness :
    processPoint 9 (paramsExp 2 (1 / 25)) stTrainedExp 1 false = some stAfterC2 ∧
    ProbsInvariant stAfterC2 := by
  have h : processPoint 9 (paramsExp 2 (1 / 25)) stTrainedExp 1 false = some stAfterC2 := by
    norm_num [processPoint, learnStep, bayesianUpdate, buReset, buGrowth, buTotal,
      stTrainedExp, stAfterC2, paramsExp, expLikelihood, expPredict, expUpdate,
      lomaxPdfClamped, zip3With, List.range_succ, oSum, oAdd, oMul, oSub, oDiv,
      thresholdDetect, oLt]
  refine ⟨h, claim2_step_invariant (paramsExp 2 (1 / 25)) (by norm_num [paramsExp])
    (fun i => ⟨by norm_num [paramsExp], by norm_num [paramsExp]⟩)
    expPredict_entry_nonneg stTrainedExp 1 9 false stAfterC2 (fun _ => ⟨?_, ?_⟩)
    (fun _ => ⟨8 / 27, ?_, by norm_num⟩) h⟩
  · intro o ho
    simp only [stTrainedExp, List.mem_singleton] at ho
    exact ⟨1, ho, zero_le_one⟩
  · norm_num [stTrainedExp, oSum, oAdd]
  · norm_num [buTotal, buReset, buGrowth, stTrainedExp, paramsExp, expLikelihood,
      expPredict, lomaxPdfClamped, zip3With, List.range_succ, oSum, oAdd, oMul, oSub]

/-- An elementwise combination of three equal-length arrays written as a
table of its entries. -/
theorem zip3With_eq_ofFn (f : α → β → γ → δ) (da : α) (db : β) (dc : γ) :
    ∀ (as : List α) (bs : List β) (cs : List γ) (n : ℕ),
      as.length = n → bs.length = n → cs.length = n →
      zip3With f as bs cs =
        List.ofFn (fun i : Fin n => f (as.getD i da) (bs.getD i db) (cs.getD i dc)) := by
  intro as
  induction as with
  | nil =>
    intro bs cs n ha _ _
    simp only [List.length_nil] at ha
    subst ha
    simp [zip3With]
  | cons a as ih =>
    intro bs cs n ha hb hc
    cases bs with
    | nil => simp at ha hb; omega
    | cons b bs =>
      cases cs with
      | nil => simp at ha hc; omega
      | cons c cs =>
        cases n with
        | zero => simp at ha
        | succ m =>
          simp only [List.length_cons, Nat.succ.injEq] at ha hb hc
          rw [List.ofFn_succ]
          simp only [zip3With, Fin.val_zero, List.getD_cons_zero, Fin.val_succ,
            List.getD_cons_succ]
          exact congrArg (f a b c :: ·) (ih bs cs m ha hb hc)

/-- Entry `i` of the array `[g(0), ..., g(n-1)]`. -/
theorem getD_map_range (g : ℕ → α) (d : α) (n i : ℕ) (h : i < n) :
    ((List.range n).map g).getD i d = g i := by
  rw [List.getD_eq_getElem?_getD, List.getElem?_map, List.getElem?_range h]
  rfl

/-- C1: in the Filtering state one observation replaces the run-length
distribution by the normalization of `[reset] + growth`: entry 0 is
`reset / total` with `reset = Σ p[i]·h[i]·pred[i]`, entry `i+1` is
`p[i]·(1-h[i])·pred[i] / total`, and the distribution grows by exactly one
entry (`total` being the sum of the prepended sequence). -/
theorem claim1_bayesian_update_formula (P : Params σ) (st : FilterState σ) (v : ℚ)
    (hlen : (P.likelihood.predict st.likelihoodState v).length = st.runLengthProbs.length) :
    (bayesianUpdate P st v).runLengthProbs =
      oDiv (buReset P st v) (buTotal P st v) ::
        List.ofFn (fun i : Fin st.runLengthProbs.length =>
          oDiv (oMul (oMul (st.runLengthProbs.getD i none)
                           (oSub (some 1) (some (P.hazard i))))
                     ((P.likelihood.predict st.likelihoodState v).getD i none))
               (buTotal P st v)) ∧
    buReset P st v =
      oSum (List.ofFn (fun i : Fin st.runLengthProbs.length =>
        oMul (oMul (st.runLengthProbs.getD i none) (some (P.hazard i)))
             ((P.likelihood.predict st.likelihoodState v).getD i none))) ∧
    (bayesianUpdate P st v).runLengthProbs.length = st.runLengthProbs.length + 1 := by
  have hGrowth : buGrowth P st v =
      List.ofFn (fun i : Fin st.runLengthProbs.length =>
        oMul (oMul (st.runLengthProbs.getD i none)
                   (oSub (some 1) (some (P.hazard i))))
             ((P.likelihood.predict st.likelihoodState v).getD i none)) := by
    unfold buGrowth
    rw [zip3With_eq_ofFn _ none none none _ _ _ st.runLengthProbs.length rfl (by simp) hlen]
    refine congrArg List.ofFn (funext fun i => ?_)
    rw [getD_map_range (fun j => some (P.hazard j)) none _ i.val i.isLt]
  have hReset : buReset P st v =
      oSum (List.ofFn (fun i : Fin st.runLengthProbs.length =>
        oMul (oMul (st.runLengthProbs.getD i none) (some (P.hazard i)))
             ((P.likelihood.predict st.likelihoodState v).getD i none))) := by
    unfold buReset
    rw [zip3With_eq_ofFn _ none none none _ _ _ st.runLengthProbs.length rfl (by simp) hlen]
    refine congrArg oSum (congrArg List.ofFn (funext fun i => ?_))
    rw [getD_map_range (fun j => some (P.hazard j)) none _ i.val i.isLt]
  refine ⟨?_, hReset, ?_⟩
  · rw [bayesianUpdate_probs_char, List.map_cons, hGrowth, List.map_ofFn]
    rfl
  · rw [bayesianUpdate_probs_char, List.map_cons, hGrowth, List.map_ofFn]
    simp

/-- Witness for C1 on the filter trained on `[1, 1]` observing 1: the
predictive array has the same length as the distribution and the update
follows the stated formula. -/
theorem claim1_witness :
    (bayesianUpdate (paramsExp 2 (1 / 25)) stTrainedExp 1).runLengthProbs =
      oDiv (buReset (paramsExp 2 (1 / 25)) stTrainedExp 1)
           (buTotal (paramsExp 2 (1 / 25)) stTrainedExp 1) ::
        List.ofFn (fun i : Fin stTrainedExp.runLengthProbs.length =>
          oDiv (oMul (oMul (stTrainedExp.runLengthProbs.getD i none)
                           (oSub (some 1) (some ((paramsExp 2 (1 / 25)).hazard i))))
                     (((paramsExp 2 (1 / 25)).likelihood.predict
                         stTrainedExp.likelihoodState 1).getD i none))
               (buTotal (paramsExp 2 (1 / 25)) stTrainedExp 1)) ∧
    buReset (paramsExp 2 (1 / 25)) stTrainedExp 1 =
      oSum (List.ofFn (fun i : Fin stTrainedExp.runLengthProbs.length =>
        oMul (oMul (stTrainedExp.runLengthProbs.getD i none)
                   (some ((paramsExp 2 (1 / 25)).hazard i)))
             (((paramsExp 2 (1 / 25)).likelihood.predict
                 stTrainedExp.likelihoodState 1).getD i none))) ∧
    (bayesianUpdate (paramsExp 2 (1 / 25)) stTrainedExp 1).runLengthProbs.length =
      stTrainedExp.runLengthProbs.length + 1 :=
  claim1_bayesian_update_formula (paramsExp 2 (1 / 25)) stTrainedExp 1
    (by norm_num [paramsExp, expLikelihood, expPredict, stTrainedExp])

/-- Phase 1 of the duplicate-preparation schedule on a change-free stream:
before work time `T = time_before_duplicate_start` the wrapper only advances
the main algorithm and no shadow exists. -/
theorem wrapPhaseA (T D : ℕ) :
    ∀ k, k ≤ T → wrapSteps counterAlg T D (wrapInit 0) k = ⟨0, k, none, k, 0⟩ := by
  intro k
  induction k with
  | zero => intro _; rfl
  | succ k ih =>
    intro hk
    rw [wrapSteps, ih (by omega)]
    have h1 : k ≠ T := by omega
    have h2 : ¬(T < k ∧ k < T + D) := by omega
    have h3 : k ≠ T + D := by omega
    simp [wrapDetect, counterAlg, handleDupPrep, h1, h2, h3]

/-- Phase 2 of the duplicate-preparation schedule: the shadow is created at
work time `T` without being fed, and at work time `T + 1 + j`
(for `j ≤ D - 1`) it has been fed exactly `j` observations. -/
theorem wrapPhaseB (T D : ℕ) (hD : 0 < D) :
    ∀ j, j ≤ D - 1 →
      wrapSteps counterAlg T D (wrapInit 0) (T + 1 + j) =
        ⟨0, T + 1 + j, some j, T + 1 + j, 0⟩ := by
  intro j
  induction j with
  | zero =>
    have hT := wrapPhaseA T D T (le_refl T)
    rw [Nat.add_zero, wrapSteps, hT]
    simp [wrapDetect, counterAlg, handleDupPrep]
  | succ j ih =>
    intro hj
    have hstep : T + 1 + (j + 1) = (T + 1 + j) + 1 := by omega
    rw [hstep, wrapSteps, ih (by omega)]
    have h1 : T + 1 + j ≠ T := by omega
    have h2 : T < T + 1 + j ∧ T + 1 + j < T + D := by omega
    simp [wrapDetect, counterAlg, handleDupPrep, h1, h2]

/-- C8 (amended): on a change-free stream the shadow filter is instantiated
at work time `T = time_before_duplicate_start` without being fed, is fed the
observations of the following `D - 1` work times
(`D = duplicate_preparation_time`) — exactly `D - 1` observations, not `D` —
and at work time `T + D` it is promoted to primary, again without being fed,
with the baseline set to the promotion time minus `D`. -/
theorem claim8_shadow_window (T D : ℕ) (hD : 0 < D) (_hTD : D < T) :
    wrapSteps counterAlg T D (wrapInit 0) (T + D + 1) =
      ⟨0, D - 1, none, T + D + 1, T⟩ := by
  have hSD := wrapPhaseB T D hD (D - 1) (le_refl (D - 1))
  have hidx : T + 1 + (D - 1) = T + D := by omega
  rw [hidx] at hSD
  rw [wrapSteps, hSD]
  have h1 : T + D ≠ T := by omega
  have h2 : ¬(T < T + D ∧ T + D < T + D) := by omega
  simp [wrapDetect, counterAlg, handleDupPrep, h1, h2]

/-- Witness for C8 (amended) at `T = 3`, `D = 2`: after 6 steps the promoted
main algorithm has processed exactly 1 = D - 1 observations and the baseline
is 3. -/
theorem claim8_window_witness :
    wrapSteps counterAlg 3 2 (wrapInit 0) 6 = ⟨0, 1, none, 6, 3⟩ :=
  claim8_shadow_window 3 2 (by norm_num) (by norm_num)
